import Mathlib

/-!
Verification development for the peer-connection orchestration and
synchronization layer of the robo-agile-facilitator frontend.

The definitions below are a shallow embedding of
`src/frontend/src/stores/video.ts` (WebRTC peer registry, screen share,
AI-audio fan-out), of the timer pieces of the session store
(`timer_paused` socket handler), and of
`src/frontend/src/components/session/HeaderTimer.vue` (local tick,
threshold notifications, pause/resume watch).

Modelling conventions:
* A `MediaStream` is its list of tracks; a track is an (id, kind) pair.
* An `RTCPeerConnection` is the state observable through the code:
  its senders (`getSenders()`), the applied remote description and the
  applied ICE candidates.
* The pinia `Map` registry is an association list with JS `Map`
  semantics: `set` overwrites in place, `delete` removes the key
  (keys are unique in a JS Map, so removing every occurrence agrees).
* Socket emissions and `connection.close()` calls are collected in an
  explicit `Effect` list; async device acquisition is passed in as an
  `Except` value (the code only observes success or a thrown error).
-/

namespace AESF

structure Track where
  id : String
  kind : String
deriving DecidableEq

abbrev MediaStream := List Track

/-- `stream.getVideoTracks()` -/
def getVideoTracks (s : MediaStream) : List Track :=
  s.filter (fun t => decide (t.kind = "video"))

/-- `stream.getAudioTracks()` -/
def getAudioTracks (s : MediaStream) : List Track :=
  s.filter (fun t => decide (t.kind = "audio"))

/-- An RTCRtpSender: `track` is null after `replaceTrack(null)`. -/
structure Sender where
  track : Option Track
deriving DecidableEq

structure RTCPeerConnection where
  senders : List Sender
  remoteDescription : Option String
  candidates : List String
deriving DecidableEq

/-- The `Peer` interface of video.ts. -/
structure Peer where
  id : String
  name : String
  connection : Option RTCPeerConnection
  stream : Option MediaStream
  audioMuted : Bool
  videoMuted : Bool
deriving DecidableEq

/-- `peers: Map<string, Peer>` as an association list (JS Map iteration
order is insertion order; keys are unique). -/
abbrev Registry := List (String × Peer)

/-- `Map.get` -/
def rget : Registry → String → Option Peer
  | [], _ => none
  | e :: rest, k => if e.1 = k then some e.2 else rget rest k

/-- `Map.set`: overwrite in place if the key exists, else append. -/
def rset : Registry → String → Peer → Registry
  | [], k, v => [(k, v)]
  | e :: rest, k, v => if e.1 = k then (k, v) :: rest else e :: rset rest k v

/-- `Map.delete` (keys are unique in a JS Map, so removing every
occurrence of the key is the same operation). -/
def rdel : Registry → String → Registry
  | [], _ => []
  | e :: rest, k => if e.1 = k then rdel rest k else e :: rdel rest k

/-- Overwrite the `connection` field of the entry at `k` (models mutating
the stored `RTCPeerConnection` object through its shared reference). -/
def setConn (m : Registry) (k : String) (pc : RTCPeerConnection) : Registry :=
  m.map (fun e => if e.1 = k then (e.1, { e.2 with connection := some pc }) else e)

inductive Msg where
  | videoOffer (targetId sdp : String)
  | videoAnswer (targetId sdp : String)
  | videoIceCandidate (targetId candidate : String)
  | videoMute (audioMuted videoMuted : Bool)
  | screenShareStart
  | screenShareStop
  | aiConnectedMsg (hostId : String)
  | aiDisconnectedMsg
deriving DecidableEq

inductive Effect where
  | emit (m : Msg)
  | closeConn (peerId : String)
deriving DecidableEq

/-- The reactive state of the video store. -/
structure VideoState where
  localStream : Option MediaStream
  screenStream : Option MediaStream
  peers : Registry
  audioMuted : Bool
  videoMuted : Bool
  isScreenSharing : Bool
  aiAudioStream : Option MediaStream
  isAIHost : Bool
  aiConnected : Bool
deriving DecidableEq

def initState : VideoState :=
  { localStream := none
    screenStream := none
    peers := []
    audioMuted := false
    videoMuted := false
    isScreenSharing := false
    aiAudioStream := none
    isAIHost := false
    aiConnected := false }

/-- `s.track?.kind === "video"` -/
def isVideoSender (s : Sender) : Bool :=
  match s.track with
  | some t => decide (t.kind = "video")
  | none => false

/-- The `getSenders().find(s => s.track?.kind === "video")` +
`sender.replaceTrack(videoTrack)` pattern: replace the track of the
first video-kind sender, leave the list unchanged when there is none. -/
def replaceFirstVideoSender (nt : Option Track) : List Sender → List Sender
  | [] => []
  | s :: rest =>
    if isVideoSender s then { track := nt } :: rest
    else s :: replaceFirstVideoSender nt rest

/-- The `peers.value.forEach(peer => { if (peer.connection) ... })`
loop shared by `startScreenShare` and `stopScreenShare`. -/
def replaceVideoTrackAll (nt : Option Track) (ps : Registry) : Registry :=
  ps.map (fun e =>
    match e.2.connection with
    | none => e
    | some pc =>
      let pc2 : RTCPeerConnection := { pc with senders := replaceFirstVideoSender nt pc.senders }
      (e.1, { e.2 with connection := some pc2 }))

/-- `initLocalMedia`: the assignment happens only after the awaited
acquisition succeeds; a failure is logged and re-thrown. -/
def initLocalMedia (st : VideoState) (acq : Except String MediaStream) :
    VideoState × Except String MediaStream :=
  match acq with
  | Except.error e => (st, Except.error e)
  | Except.ok s => ({ st with localStream := some s }, Except.ok s)

/-- `startScreenShare`. On acquisition failure nothing is assigned and the
error is re-thrown.  On success the stream and flag are set, the first
video sender of every connected peer gets the screen video track, and
`screen_share_start` is emitted.  (When the acquired stream has no video
track, the JS code would additionally throw a TypeError at
`videoTrack.onended = ...` after the mutations and before the emit; the
`onended`-callback wiring itself is not otherwise observable here.) -/
def startScreenShare (st : VideoState) (acq : Except String MediaStream) :
    VideoState × List Effect × Except String MediaStream :=
  match acq with
  | Except.error e => (st, [], Except.error e)
  | Except.ok stream =>
    match (getVideoTracks stream).head? with
    | none =>
      ({ st with
          screenStream := some stream
          isScreenSharing := true
          peers := replaceVideoTrackAll none st.peers }, [], Except.error "TypeError")
    | some vt =>
      ({ st with
          screenStream := some stream
          isScreenSharing := true
          peers := replaceVideoTrackAll (some vt) st.peers },
       [Effect.emit Msg.screenShareStart], Except.ok stream)

/-- `stopScreenShare`: early return when no screen stream exists;
otherwise clear the stream and flag, restore the camera track on the
first video sender of every connected peer when both a sender and a
camera video track exist (`if (sender && videoTrack)`), and emit
`screen_share_stop`.  (`track.stop()` on the dropped screen tracks has
no further observable state here.) -/
def stopScreenShare (st : VideoState) : VideoState × List Effect :=
  match st.screenStream with
  | none => (st, [])
  | some _ =>
    match st.localStream with
    | none =>
      ({ st with screenStream := none, isScreenSharing := false },
       [Effect.emit Msg.screenShareStop])
    | some ls =>
      match (getVideoTracks ls).head? with
      | none =>
        ({ st with screenStream := none, isScreenSharing := false },
         [Effect.emit Msg.screenShareStop])
      | some vt =>
        ({ st with
            screenStream := none
            isScreenSharing := false
            peers := replaceVideoTrackAll (some vt) st.peers },
         [Effect.emit Msg.screenShareStop])

/-- The connection object built by `new RTCPeerConnection` plus the
`addTrack` loop over the local stream tracks. -/
def mkPC (ls : Option MediaStream) : RTCPeerConnection :=
  { senders := (ls.getD []).map (fun t => { track := some t })
    remoteDescription := none
    candidates := [] }

/-- `createPeerConnection(peerId, createOffer)`: build the connection,
merge it into the registry entry (`{...existing, id, name, connection,
audioMuted, videoMuted}` with JS `||` falsiness for the defaults), and
emit `video_offer` when acting as the initiator.  The produced SDP is
opaque; it is modelled as the literal "offer". -/
def createPeerConnection (st : VideoState) (peerId : String) (createOffer : Bool) :
    VideoState × List Effect × RTCPeerConnection :=
  let pc := mkPC st.localStream
  let existing := rget st.peers peerId
  let entry : Peer :=
    { id := peerId
      name :=
        match existing with
        | some p => if p.name = "" then "Unknown" else p.name
        | none => "Unknown"
      connection := some pc
      stream := match existing with | some p => p.stream | none => none
      audioMuted := match existing with | some p => p.audioMuted | none => false
      videoMuted := match existing with | some p => p.videoMuted | none => false }
  ({ st with peers := rset st.peers peerId entry },
   if createOffer then [Effect.emit (Msg.videoOffer peerId "offer")] else [],
   pc)

/-- The `video_peers` handler: the newly joined client connects to every
listed existing peer as the initiator, in order. -/
def handleVideoPeers (st : VideoState) : List String → VideoState × List Effect
  | [] => (st, [])
  | pid :: rest =>
    let r1 := createPeerConnection st pid true
    let r2 := handleVideoPeers r1.1 rest
    (r2.1, r1.2.1 ++ r2.2)

/-- The `video_peer_joined` handler: register the newcomer without a
connection and wait for their offer. -/
def handlePeerJoined (st : VideoState) (peerId name : String) : VideoState × List Effect :=
  let entry : Peer :=
    { id := peerId
      name := name
      connection := none
      stream := none
      audioMuted := false
      videoMuted := false }
  ({ st with peers := rset st.peers peerId entry }, [])

/-- The `video_peer_left` handler: close the connection if one exists,
then delete the registry entry. -/
def handlePeerLeft (st : VideoState) (peerId : String) : VideoState × List Effect :=
  ({ st with peers := rdel st.peers peerId },
   match (rget st.peers peerId).bind Peer.connection with
   | some _ => [Effect.closeConn peerId]
   | none => [])

/-- `handleOffer`: create the answering connection, apply the remote
description to it, and emit `video_answer` (SDP modelled as "answer"). -/
def handleOffer (st : VideoState) (fromId sdp : String) : VideoState × List Effect :=
  let r := createPeerConnection st fromId false
  let pc2 : RTCPeerConnection := { r.2.2 with remoteDescription := some sdp }
  ({ r.1 with peers := setConn r.1.peers fromId pc2 },
   r.2.1 ++ [Effect.emit (Msg.videoAnswer fromId "answer")])

/-- `handleAnswer`: apply the remote description when the sending peer has a
connection exists (`if (peer?.connection)`), otherwise do nothing. -/
def handleAnswer (st : VideoState) (fromId sdp : String) : VideoState × List Effect :=
  match rget st.peers fromId with
  | none => (st, [])
  | some p =>
    match p.connection with
    | none => (st, [])
    | some pc =>
      ({ st with peers := setConn st.peers fromId { pc with remoteDescription := some sdp } }, [])

/-- `handleIceCandidate`: apply the candidate when the connection of the peer
exists, otherwise silently drop it. -/
def handleIceCandidate (st : VideoState) (fromId cand : String) : VideoState × List Effect :=
  match rget st.peers fromId with
  | none => (st, [])
  | some p =>
    match p.connection with
    | none => (st, [])
    | some pc =>
      ({ st with peers := setConn st.peers fromId { pc with candidates := pc.candidates ++ [cand] } }, [])

/-- `s.track?.id === tid` -/
def trackIdIs (tid : String) (s : Sender) : Bool :=
  match s.track with
  | some t => decide (t.id = tid)
  | none => false

/-- `senders.some(s => s.track?.id === audioTrack.id)` -/
def hasTrackId (tid : String) (ss : List Sender) : Bool :=
  ss.any (trackIdIs tid)

/-- One step of the `broadcastAIAudio` forEach: skip the synthetic AI
entry, skip entries without a connection, and add the agent audio track
only when no sender already carries a track with its id. -/
def addAITrackEntry (t : Track) (e : String × Peer) : String × Peer :=
  if e.1 = "ai-facilitator" then e
  else
    match e.2.connection with
    | none => e
    | some pc =>
      if hasTrackId t.id pc.senders then e
      else
        let pc2 : RTCPeerConnection := { pc with senders := pc.senders ++ [{ track := some t }] }
        (e.1, { e.2 with connection := some pc2 })

/-- `broadcastAIAudio` (the AI-audio fan-out). -/
def broadcastAIAudio (st : VideoState) : VideoState :=
  match st.aiAudioStream with
  | none => st
  | some stream =>
    match (getAudioTracks stream).head? with
    | none => st
    | some audioTrack => { st with peers := st.peers.map (addAITrackEntry audioTrack) }

/-- The synthetic AI registry entry written by both `setAIAudioStream`
and `handleRemoteAIAudio`: no connection handle. -/
def aiPeer (stream : MediaStream) : Peer :=
  { id := "ai-facilitator"
    name := "🤖 AI 퍼실리테이터"
    connection := none
    stream := some stream
    audioMuted := false
    videoMuted := true }

/-- `setAIAudioStream(stream)` on the hosting client: adopt the stream,
mark this client as host, register the synthetic AI participant, emit
`ai_connected`, then fan the audio out to all existing connections. -/
def setAIAudioStream (st : VideoState) (stream : MediaStream) (hostId : String) :
    VideoState × List Effect :=
  let st1 : VideoState :=
    { st with
        aiAudioStream := some stream
        isAIHost := true
        aiConnected := true
        peers := rset st.peers "ai-facilitator" (aiPeer stream) }
  (broadcastAIAudio st1, [Effect.emit (Msg.aiConnectedMsg hostId)])

/-- `handleRemoteAIAudio(stream)` on a non-hosting client: ignore when
this client is itself the host, otherwise adopt the stream and register
the synthetic AI participant (again without a connection). -/
def handleRemoteAIAudio (st : VideoState) (stream : MediaStream) : VideoState :=
  if st.isAIHost then st
  else
    { st with
        aiAudioStream := some stream
        aiConnected := true
        peers := rset st.peers "ai-facilitator" (aiPeer stream) }

/-! ## Timer model

`SessionTimerState` embeds the timer-relevant refs of the session store
(`isPaused`, `syncedElapsedSeconds`, `isWorkshopRunning`); `HeaderState`
embeds the local refs of HeaderTimer.vue (`elapsedSeconds`, `isRunning`,
`warningsSent`). -/

structure SessionTimerState where
  isPaused : Bool
  syncedElapsedSeconds : Nat
  isWorkshopRunning : Bool
deriving DecidableEq

structure HeaderState where
  elapsedSeconds : Nat
  isRunning : Bool
  warningsSent : List String
deriving DecidableEq

structure TimerClient where
  store : SessionTimerState
  timer : HeaderState
deriving DecidableEq

/-- The HeaderTimer `watch(() => sessionStore.isPaused, ...)` callback.
Vue watchers fire (on the pre-render flush, after the whole socket
handler ran) only when the watched value changed. -/
def applyPausedWatch (c : TimerClient) (oldPaused : Bool) : TimerClient :=
  if c.store.isPaused = oldPaused then c
  else if c.store.isPaused then
    { c with timer :=
      { c.timer with
          elapsedSeconds := c.store.syncedElapsedSeconds
          isRunning := false } }
  else if c.store.isWorkshopRunning && !c.timer.isRunning then
    { c with timer := { c.timer with isRunning := true } }
  else c

/-- Processing one `timer_paused{paused, elapsed_seconds}` message: the
session-store handler writes `isPaused` and `syncedElapsedSeconds`, then
the HeaderTimer watch on `isPaused` runs. -/
def processTimerPaused (c : TimerClient) (paused : Bool) (elapsed : Nat) : TimerClient :=
  applyPausedWatch
    { c with store :=
      { c.store with
          isPaused := paused
          syncedElapsedSeconds := elapsed } }
    c.store.isPaused

/-! ### Threshold notifications (HeaderTimer `checkTimeEvents`) -/

inductive TimerEvent where
  | timeWarning (type : String) (minutesLeft : Nat) (phase : String)
  | phaseTimeUp (phase : String)
  | workshopEnd
deriving DecidableEq

def phaseOrder : List String :=
  ["orientation", "event_elicitation", "event_refinement",
   "command_policy", "timeline_ordering", "summary"]

def phaseAllocationPct (p : String) : Nat :=
  if p = "orientation" then 10
  else if p = "event_elicitation" then 30
  else if p = "event_refinement" then 20
  else if p = "command_policy" then 20
  else if p = "timeline_ordering" then 10
  else if p = "summary" then 10
  else 0

structure PhaseTiming where
  phase : String
  startSeconds : Nat
  endSeconds : Nat
deriving DecidableEq

/-- The `phaseTimings` computed property.  `Math.floor(total * pct/100)`
is modelled as Nat division (JS computes it in binary floating point,
which can differ by one second on adversarial totals; the claims proved
below do not depend on the exact cut points). -/
def phaseTimings (total : Nat) : List PhaseTiming :=
  (phaseOrder.foldl
    (fun acc ph =>
      let duration := total * phaseAllocationPct ph / 100
      (acc.1 + duration, acc.2 ++ [{ phase := ph, startSeconds := acc.1, endSeconds := acc.1 + duration }]))
    (0, [])).2

/-- `phaseRemainingSeconds` (0 when the phase is not found;
`Math.max(0, end - elapsed)` is Nat subtraction). -/
def phaseRemainingSeconds (total elapsed : Nat) (phase : String) : Nat :=
  match (phaseTimings total).find? (fun t => decide (t.phase = phase)) with
  | none => 0
  | some t => t.endSeconds - elapsed

/-- `warningsSent.has(key)` -/
def memKey (k : String) (ws : List String) : Bool :=
  ws.any (fun w => decide (w = k))

/-- One `if (cond && !warningsSent.has(key)) { add(key); emit(ev) }`
block of `checkTimeEvents`.  The accumulator carries the set and the
events emitted so far (each paired with its threshold key). -/
def fireIf (cond : Bool) (key : String) (ev : TimerEvent)
    (acc : List String × List (String × TimerEvent)) :
    List String × List (String × TimerEvent) :=
  if cond && !(memKey key acc.1) then (key :: acc.1, acc.2 ++ [(key, ev)]) else acc

def fireAll : List (Bool × String × TimerEvent) →
    (List String × List (String × TimerEvent)) → List String × List (String × TimerEvent)
  | [], acc => acc
  | e :: rest, acc => fireAll rest (fireIf e.1 e.2.1 e.2.2 acc)

/-- The five leading guard blocks of `checkTimeEvents`, in source order. -/
def fiveEntries (pr tr : Nat) (phase : String) : List (Bool × String × TimerEvent) :=
  [ (pr == 300, phase ++ "-5min", TimerEvent.timeWarning "phase-5min" 5 phase),
    (pr == 60, phase ++ "-1min", TimerEvent.timeWarning "phase-1min" 1 phase),
    (pr == 0, phase ++ "-end", TimerEvent.phaseTimeUp phase),
    (tr == 600, "total-10min", TimerEvent.timeWarning "total-10min" 10 phase),
    (tr == 300, "total-5min", TimerEvent.timeWarning "total-5min" 5 phase) ]

/-- `checkTimeEvents`: the six sequential guard blocks; the last one also
calls `pauseTimerLocal()`. -/
def checkTimeEvents (total : Nat) (phase : String) (cs : HeaderState) :
    HeaderState × List (String × TimerEvent) :=
  let pr := phaseRemainingSeconds total cs.elapsedSeconds phase
  let tr := total - cs.elapsedSeconds
  let a5 := fireAll (fiveEntries pr tr phase) (cs.warningsSent, [])
  let a6 := fireIf (tr == 0) "workshop-end" TimerEvent.workshopEnd a5
  ({ cs with
      warningsSent := a6.1
      isRunning := if (tr == 0) && !(memKey "workshop-end" a5.1) then false else cs.isRunning },
   a6.2)

/-- One interval callback: `if (!sessionStore.isPaused) { elapsed++;
checkTimeEvents() }`. -/
def tick (total : Nat) (phase : String) (storePaused : Bool) (cs : HeaderState) :
    HeaderState × List (String × TimerEvent) :=
  if storePaused then (cs, [])
  else checkTimeEvents total phase { cs with elapsedSeconds := cs.elapsedSeconds + 1 }

/-- A run of unpaused ticks; the phase may change between ticks. -/
def runTicks (total : Nat) (phases : List String) (cs : HeaderState) :
    HeaderState × List (String × TimerEvent) :=
  match phases with
  | [] => (cs, [])
  | ph :: rest =>
    let r1 := tick total ph false cs
    let r2 := runTicks total rest r1.1
    (r2.1, r1.2 ++ r2.2)

/-- The reset button: `elapsedSeconds = 0; warningsSent.clear()`. -/
def resetTimer (cs : HeaderState) : HeaderState :=
  { cs with elapsedSeconds := 0, warningsSent := [] }

/-- Number of emitted events attached to threshold key `k`. -/
def countKey (k : String) (evs : List (String × TimerEvent)) : Nat :=
  evs.countP (fun e => decide (e.1 = k))

/-! ## Counting senders and registry lemmas -/

/-- `s.track === t` (track identity). -/
def trackIs (t : Track) (s : Sender) : Bool :=
  decide (s.track = some t)

/-- Number of senders of one connection carrying exactly track `t`. -/
def countConn (t : Track) : Option RTCPeerConnection → Nat
  | none => 0
  | some pc => pc.senders.countP (trackIs t)

/-- Number of senders carrying track `t` across the whole registry. -/
def countReg (t : Track) : Registry → Nat
  | [] => 0
  | e :: rest => countConn t e.2.connection + countReg t rest

/-- Number of registry entries that hold a connection. -/
def connectedCount : Registry → Nat
  | [] => 0
  | e :: rest => (match e.2.connection with | none => 0 | some _ => 1) + connectedCount rest

lemma rget_rset (m : Registry) (k k' : String) (v : Peer) :
    rget (rset m k v) k' = if k' = k then some v else rget m k' := by
  induction m with
  | nil =>
    by_cases h : k' = k
    · simp [rget, rset, h]
    · simp [rget, rset, h, Ne.symm h]
  | cons e rest ih =>
    by_cases he : e.1 = k
    · by_cases h : k' = k
      · simp [rget, rset, he, h]
      · simp [rget, rset, he, h, Ne.symm h]
    · by_cases h2 : e.1 = k'
      · have h : ¬(k' = k) := fun hh => he (h2.trans hh)
        simp [rget, rset, he, h2, h]
      · simp [rget, rset, he, h2, ih]

lemma rget_rset_self (m : Registry) (k : String) (v : Peer) :
    rget (rset m k v) k = some v := by
  simp [rget_rset]

lemma rget_rdel_self (m : Registry) (k : String) :
    rget (rdel m k) k = none := by
  induction m with
  | nil => simp [rdel, rget]
  | cons e rest ih =>
    by_cases h : e.1 = k <;> simp [rdel, rget, h, ih]

lemma rget_setConn_self (m : Registry) (k : String) (pc : RTCPeerConnection) (p : Peer)
    (h : rget m k = some p) :
    rget (setConn m k pc) k = some { p with connection := some pc } := by
  induction m with
  | nil => simp [rget] at h
  | cons e rest ih =>
    by_cases he : e.1 = k
    · simp [rget, he] at h
      simp [setConn, rget, he, h]
    · simp [rget, he] at h
      simpa [setConn, rget, he] using ih h

/-! ## Claim C6 — device-acquisition failure leaves all state unchanged -/

/-- C6: a failed camera/microphone acquisition in `initLocalMedia` and a
failed screen acquisition in `startScreenShare` re-raise the error to
the caller, mutate no state (local stream, screen stream, sharing flag,
registry), perform no track replacement and emit no message. -/
theorem acquisition_failure_leaves_state_unchanged (st : VideoState) (e : String) :
    initLocalMedia st (Except.error e) = (st, Except.error e) ∧
    startScreenShare st (Except.error e) = (st, [], Except.error e) :=
  ⟨rfl, rfl⟩

/-! ## Claim C10 — stopScreenShare with no screen stream is a no-op -/

/-- C10: when no screen stream exists, `stopScreenShare` returns
immediately: the state is unchanged and no `screen_share_stop` message
(or any other effect) is emitted. -/
theorem stopScreenShare_without_stream_is_noop (st : VideoState)
    (h : st.screenStream = none) :
    stopScreenShare st = (st, []) := by
  unfold stopScreenShare
  rw [h]

/-- Witness for C10 at the initial state. -/
theorem stopScreenShare_without_stream_is_noop_witness :
    stopScreenShare initState = (initState, []) :=
  stopScreenShare_without_stream_is_noop initState rfl

/-! ## Claim C7 — ICE candidates applied iff the connection exists -/

/-- C7: an incoming ICE candidate is applied immediately to the sender
connection when that connection exists in the registry; when the peer is
unknown or has no connection object yet, the candidate is dropped
silently: the state is returned unchanged and nothing is emitted. -/
theorem ice_candidate_applied_or_dropped (st : VideoState) (pid cand : String) :
    (∀ p pc, rget st.peers pid = some p → p.connection = some pc →
      handleIceCandidate st pid cand =
        ({ st with peers := setConn st.peers pid { pc with candidates := pc.candidates ++ [cand] } }, []) ∧
      (rget (handleIceCandidate st pid cand).1.peers pid).bind Peer.connection =
        some { pc with candidates := pc.candidates ++ [cand] }) ∧
    (rget st.peers pid = none → handleIceCandidate st pid cand = (st, [])) ∧
    (∀ p, rget st.peers pid = some p → p.connection = none →
      handleIceCandidate st pid cand = (st, [])) := by
  refine ⟨?_, ?_, ?_⟩
  · intro p pc hp hc
    have h1 : handleIceCandidate st pid cand =
        ({ st with peers := setConn st.peers pid { pc with candidates := pc.candidates ++ [cand] } }, []) := by
      simp [handleIceCandidate, hp, hc]
    refine ⟨h1, ?_⟩
    rw [h1]
    have h2 := rget_setConn_self st.peers pid { pc with candidates := pc.candidates ++ [cand] } p hp
    simp [h2]
  · intro hp
    simp [handleIceCandidate, hp]
  · intro p hp hc
    simp [handleIceCandidate, hp, hc]

/-! ## Sample concrete objects used by witnesses -/

def tCam : Track := { id := "cam", kind := "video" }

def tScr : Track := { id := "scr", kind := "video" }

def tAI : Track := { id := "ai0", kind := "audio" }

def pcA : RTCPeerConnection :=
  { senders := [{ track := some tCam }], remoteDescription := none, candidates := [] }

def peerA : Peer :=
  { id := "A", name := "Alice", connection := some pcA, stream := none
    audioMuted := false, videoMuted := false }

/-- A state with one connected peer, a camera stream and an AI stream. -/
def stA : VideoState :=
  { initState with
      peers := [("A", peerA)]
      localStream := some [tCam]
      aiAudioStream := some [tAI] }

/-- Witness for C7: the candidate is applied on the connected peer `A`
of `stA`, and dropped for the unknown peer `Z`. -/
theorem ice_candidate_applied_or_dropped_witness :
    (rget (handleIceCandidate stA "A" "cand0").1.peers "A").bind Peer.connection =
      some { pcA with candidates := ["cand0"] } ∧
    handleIceCandidate stA "Z" "cand0" = (stA, []) := by
  constructor
  · have h := ((ice_candidate_applied_or_dropped stA "A" "cand0").1 peerA pcA (by decide) rfl).2
    simpa using h
  · exact (ice_candidate_applied_or_dropped stA "Z" "cand0").2.1 (by decide)

/-! ## Claim C2 — timer_paused reconciliation -/

/-- C2 counterexample: a client paused at a drifted local value of 100
seconds processes `timer_paused{isPaused=false, elapsedSeconds=42}` (a
resume).  The claim says its locally observed elapsed value must equal
42 afterwards; in the code the resume branch of the `isPaused` watch
only restarts the local interval and never adopts the synced value, so
the local value stays 100. -/
theorem timer_resume_keeps_stale_local_value :
    (processTimerPaused
      { store := { isPaused := true, syncedElapsedSeconds := 42, isWorkshopRunning := true }
        timer := { elapsedSeconds := 100, isRunning := false, warningsSent := [] } }
      false 42).timer.elapsedSeconds ≠ 42 := by
  decide

/-- C2 (amended): only a `timer_paused` message with `isPaused=true`
arriving while the client is not already paused makes the local elapsed
value adopt the broadcast `elapsedSeconds`; a resume message
(`isPaused=false`) always leaves the locally computed elapsed value
unchanged, as does a pause received while already paused (the synced
value is stored but the watch does not fire). -/
theorem timer_paused_adopts_only_on_pause_transition (c : TimerClient) (E : Nat) :
    (c.store.isPaused = false → (processTimerPaused c true E).timer.elapsedSeconds = E) ∧
    (processTimerPaused c false E).timer.elapsedSeconds = c.timer.elapsedSeconds ∧
    (c.store.isPaused = true → (processTimerPaused c true E).timer.elapsedSeconds = c.timer.elapsedSeconds) := by
  refine ⟨?_, ?_, ?_⟩
  · intro h
    simp [processTimerPaused, applyPausedWatch, h]
  · cases h : c.store.isPaused with
    | false => simp [processTimerPaused, applyPausedWatch, h]
    | true =>
      by_cases hw : (c.store.isWorkshopRunning && !c.timer.isRunning) = true <;>
        simp [processTimerPaused, applyPausedWatch, h, hw]
  · intro h
    simp [processTimerPaused, applyPausedWatch, h]

/-- Witness for C2 (amended) on a concrete running, unpaused client. -/
theorem timer_paused_adopts_only_on_pause_transition_witness :
    (processTimerPaused
      { store := { isPaused := false, syncedElapsedSeconds := 0, isWorkshopRunning := true }
        timer := { elapsedSeconds := 100, isRunning := true, warningsSent := [] } }
      true 42).timer.elapsedSeconds = 42 :=
  (timer_paused_adopts_only_on_pause_transition
    { store := { isPaused := false, syncedElapsedSeconds := 0, isWorkshopRunning := true }
      timer := { elapsedSeconds := 100, isRunning := true, warningsSent := [] } }
    42).1 rfl

/-! ## Claim C5 — peer_left cleanup -/

/-- C5 counterexample: after `video_peer_left` removed peer `A`, an
incoming `video_offer` from `A` is still processed: `handleOffer`
unconditionally re-creates the registry entry with a fresh connection
and emits `video_answer`, contradicting "no further messages carrying
that id (offer, answer, ICE candidate) are processed afterwards". -/
theorem offer_after_peer_left_is_processed :
    rget (handleOffer (handlePeerLeft stA "A").1 "A" "sdp0").1.peers "A" ≠ none ∧
    (handleOffer (handlePeerLeft stA "A").1 "A" "sdp0").2 =
      [Effect.emit (Msg.videoAnswer "A" "answer")] := by
  constructor
  · decide
  · decide

/-- C5 (amended): processing `video_peer_left` closes the departing peer
connection handle when one exists (and emits no close otherwise) and
removes the entry from the registry; a subsequent `video_answer` or
`video_ice_candidate` for that id is ignored (state unchanged, nothing
emitted).  A subsequent `video_offer` from that id, however, is
processed as a fresh negotiation and re-creates the entry. -/
theorem peer_left_removes_and_blocks_answer_and_ice (st : VideoState) (pid sdp cand : String) :
    rget (handlePeerLeft st pid).1.peers pid = none ∧
    (∀ p pc, rget st.peers pid = some p → p.connection = some pc →
      (handlePeerLeft st pid).2 = [Effect.closeConn pid]) ∧
    ((rget st.peers pid).bind Peer.connection = none → (handlePeerLeft st pid).2 = []) ∧
    handleAnswer (handlePeerLeft st pid).1 pid sdp = ((handlePeerLeft st pid).1, []) ∧
    handleIceCandidate (handlePeerLeft st pid).1 pid cand = ((handlePeerLeft st pid).1, []) := by
  have hdel : rget (handlePeerLeft st pid).1.peers pid = none := by
    have : (handlePeerLeft st pid).1.peers = rdel st.peers pid := rfl
    rw [this, rget_rdel_self]
  refine ⟨hdel, ?_, ?_, ?_, ?_⟩
  · intro p pc hp hc
    simp [handlePeerLeft, hp, hc]
  · intro h
    simp [handlePeerLeft, h]
  · simp [handleAnswer, hdel]
  · simp [handleIceCandidate, hdel]

/-- Witness for C5 (amended) at `stA` (peer `A` holds a connection). -/
theorem peer_left_removes_and_blocks_answer_and_ice_witness :
    rget (handlePeerLeft stA "A").1.peers "A" = none ∧
    (handlePeerLeft stA "A").2 = [Effect.closeConn "A"] ∧
    handleAnswer (handlePeerLeft stA "A").1 "A" "sdp1" = ((handlePeerLeft stA "A").1, []) := by
  have h := peer_left_removes_and_blocks_answer_and_ice stA "A" "sdp1" "cand1"
  exact ⟨h.1, h.2.1 peerA pcA (by decide) rfl, h.2.2.2.1⟩

/-! ## Claim C1 — who initiates the negotiation -/

/-- Predicate: the registry entry for `i` exists and holds a connection. -/
def hasConn (st : VideoState) (i : String) : Prop :=
  ∃ p, rget st.peers i = some p ∧ p.connection.isSome = true

lemma createPC_effects (st : VideoState) (pid : String) :
    (createPeerConnection st pid true).2.1 = [Effect.emit (Msg.videoOffer pid "offer")] :=
  rfl

lemma createPC_hasConn_self (st : VideoState) (pid : String) (b : Bool) :
    hasConn (createPeerConnection st pid b).1 pid :=
  ⟨_, rget_rset_self st.peers pid _, rfl⟩

lemma createPC_hasConn_preserved (st : VideoState) (pid i : String) (b : Bool)
    (h : hasConn st i) : hasConn (createPeerConnection st pid b).1 i := by
  by_cases hi : i = pid
  · subst hi; exact createPC_hasConn_self st i b
  · obtain ⟨p, hp, hc⟩ := h
    refine ⟨p, ?_, hc⟩
    have : (createPeerConnection st pid b).1.peers = rset st.peers pid _ := rfl
    rw [this, rget_rset]
    simp [hi, hp]

lemma handleVideoPeers_hasConn_preserved (ids : List String) (st : VideoState) (i : String)
    (h : hasConn st i) : hasConn (handleVideoPeers st ids).1 i := by
  induction ids generalizing st with
  | nil => exact h
  | cons pid rest ih =>
    exact ih _ (createPC_hasConn_preserved st pid i true h)

lemma handleVideoPeers_effects (ids : List String) (st : VideoState) :
    (handleVideoPeers st ids).2 = ids.map (fun i => Effect.emit (Msg.videoOffer i "offer")) := by
  induction ids generalizing st with
  | nil => rfl
  | cons pid rest ih =>
    simp [handleVideoPeers, createPC_effects, ih]

lemma handleVideoPeers_connects (ids : List String) (st : VideoState) (i : String)
    (h : i ∈ ids) : hasConn (handleVideoPeers st ids).1 i := by
  induction ids generalizing st with
  | nil => cases h
  | cons pid rest ih =>
    rcases List.mem_cons.mp h with rfl | hm
    · exact handleVideoPeers_hasConn_preserved rest _ i (createPC_hasConn_self st i true)
    · exact ih _ hm

/-- C1 counterexample: the claim says the already-present participant
initiates when it receives the join notification, and that the newcomer
does not create offers on receiving the peers snapshot.  The code does
the opposite.  Concretely: a client processing `video_peer_joined{B}`
emits nothing and registers `B` without a connection — it does not offer
— while a newcomer processing `video_peers{[A]}` creates the connection
and emits the offer itself. -/
theorem existing_client_does_not_offer_on_join :
    (handlePeerJoined initState "B" "Bob").2 = [] ∧
    (rget (handlePeerJoined initState "B" "Bob").1.peers "B").bind Peer.connection = none ∧
    (handleVideoPeers initState ["A"]).2 = [Effect.emit (Msg.videoOffer "A" "offer")] := by
  refine ⟨rfl, by decide, rfl⟩

/-- C1 (amended): the initiator convention of the code is the reverse of
the claim, with still exactly one offering side per pair — the
*newcomer* initiates: on receiving the peers snapshot (`video_peers`)
it creates a connection and sends exactly one offer to every listed
existing participant, while an existing client receiving the join
notification (`video_peer_joined`) registers the newcomer without a
connection, emits nothing, and waits to answer the offer of the newcomer. -/
theorem newcomer_offers_existing_client_waits (st : VideoState) (ids : List String)
    (pid nm : String) :
    (handlePeerJoined st pid nm).2 = [] ∧
    (rget (handlePeerJoined st pid nm).1.peers pid).bind Peer.connection = none ∧
    (handleVideoPeers st ids).2 = ids.map (fun i => Effect.emit (Msg.videoOffer i "offer")) ∧
    ∀ i ∈ ids, hasConn (handleVideoPeers st ids).1 i := by
  refine ⟨rfl, ?_, handleVideoPeers_effects ids st, fun i hi => handleVideoPeers_connects ids st i hi⟩
  have : (handlePeerJoined st pid nm).1.peers = rset st.peers pid _ := rfl
  rw [this, rget_rset_self]
  rfl

/-- Witness for C1 (amended): one existing peer `A`, newcomer joins. -/
theorem newcomer_offers_existing_client_waits_witness :
    (handlePeerJoined initState "B" "Bob").2 = [] ∧
    (handleVideoPeers initState ["A"]).2 = [Effect.emit (Msg.videoOffer "A" "offer")] ∧
    hasConn (handleVideoPeers initState ["A"]).1 "A" := by
  have h := newcomer_offers_existing_client_waits initState ["A"] "B" "Bob"
  exact ⟨h.1, h.2.2.1, h.2.2.2 "A" (by decide)⟩

/-! ## Claim C9 — the synthetic AI entry never carries a connection -/

lemma addAITrackEntry_key (t : Track) (e : String × Peer) :
    (addAITrackEntry t e).1 = e.1 := by
  unfold addAITrackEntry
  by_cases h1 : e.1 = "ai-facilitator"
  · simp [h1]
  · cases hc : e.2.connection with
    | none => simp [h1, hc]
    | some pc =>
      by_cases hh : hasTrackId t.id pc.senders = true <;> simp [h1, hc, hh]

lemma addAITrackEntry_ai (t : Track) (e : String × Peer) (h : e.1 = "ai-facilitator") :
    addAITrackEntry t e = e := by
  simp [addAITrackEntry, h]

lemma rget_map_addAI (t : Track) (ps : Registry) :
    rget (ps.map (addAITrackEntry t)) "ai-facilitator" = rget ps "ai-facilitator" := by
  induction ps with
  | nil => rfl
  | cons e rest ih =>
    by_cases h : e.1 = "ai-facilitator"
    · rw [List.map_cons, addAITrackEntry_ai t e h]
      simp [rget, h]
    · have hk : (addAITrackEntry t e).1 = e.1 := addAITrackEntry_key t e
      simp [rget, hk, h, ih]

lemma rget_broadcastAIAudio_ai (st : VideoState) :
    rget (broadcastAIAudio st).peers "ai-facilitator" = rget st.peers "ai-facilitator" := by
  unfold broadcastAIAudio
  cases hs : st.aiAudioStream with
  | none => rfl
  | some stream =>
    cases ht : (getAudioTracks stream).head? with
    | none => simp [ht]
    | some t => simp [ht, rget_map_addAI]

/-- C9: the synthetic AI participant entry `ai-facilitator` never holds a
connection handle: the host-side `setAIAudioStream` writes it without a
connection (and the subsequent fan-out leaves that entry untouched), and
the non-host `handleRemoteAIAudio` also writes it without a connection,
leaves every other registry entry unchanged (it dials no connection to
the agent), and mutates nothing at all when the client is itself the
host. -/
theorem ai_entry_never_has_connection (st : VideoState) (stream : MediaStream)
    (hostId : String) :
    (rget (setAIAudioStream st stream hostId).1.peers "ai-facilitator").bind Peer.connection = none ∧
    (st.isAIHost = true → handleRemoteAIAudio st stream = st) ∧
    (st.isAIHost = false →
      (rget (handleRemoteAIAudio st stream).peers "ai-facilitator").bind Peer.connection = none ∧
      ∀ k, k ≠ "ai-facilitator" → rget (handleRemoteAIAudio st stream).peers k = rget st.peers k) := by
  refine ⟨?_, ?_, ?_⟩
  · have h1 : (setAIAudioStream st stream hostId).1 = broadcastAIAudio
        { st with
            aiAudioStream := some stream
            isAIHost := true
            aiConnected := true
            peers := rset st.peers "ai-facilitator" (aiPeer stream) } := rfl
    rw [h1, rget_broadcastAIAudio_ai]
    have h2 : rget (rset st.peers "ai-facilitator" (aiPeer stream)) "ai-facilitator" =
        some (aiPeer stream) := rget_rset_self _ _ _
    simp only [h2]
    rfl
  · intro h
    simp [handleRemoteAIAudio, h]
  · intro h
    constructor
    · have h2 : rget (handleRemoteAIAudio st stream).peers "ai-facilitator" =
          some (aiPeer stream) := by
        simp only [handleRemoteAIAudio, h]
        simpa using rget_rset_self st.peers "ai-facilitator" (aiPeer stream)
      simp only [h2]
      rfl
    · intro k hk
      simp only [handleRemoteAIAudio, h]
      have := rget_rset st.peers "ai-facilitator" k (aiPeer stream)
      simpa [hk] using this

/-- Witness for C9 at `stA` (non-host) and at a hosting variant. -/
theorem ai_entry_never_has_connection_witness :
    (rget (setAIAudioStream stA [tAI] "host0").1.peers "ai-facilitator").bind Peer.connection = none ∧
    handleRemoteAIAudio { stA with isAIHost := true } [tAI] = { stA with isAIHost := true } ∧
    (rget (handleRemoteAIAudio stA [tAI]).peers "ai-facilitator").bind Peer.connection = none := by
  refine ⟨(ai_entry_never_has_connection stA [tAI] "host0").1, ?_, ?_⟩
  · exact (ai_entry_never_has_connection { stA with isAIHost := true } [tAI] "host0").2.1 rfl
  · exact ((ai_entry_never_has_connection stA [tAI] "host0").2.2 rfl).1

/-! ## Claim C4 — AI-audio fan-out is idempotent -/

lemma hasTrackId_append_self (t : Track) (ss : List Sender) :
    hasTrackId t.id (ss ++ [{ track := some t }]) = true := by
  simp [hasTrackId, List.any_append, trackIdIs]

lemma addAITrackEntry_idem (t : Track) (e : String × Peer) :
    addAITrackEntry t (addAITrackEntry t e) = addAITrackEntry t e := by
  by_cases h1 : e.1 = "ai-facilitator"
  · rw [addAITrackEntry_ai t e h1, addAITrackEntry_ai t e h1]
  · cases hc : e.2.connection with
    | none =>
      have he : addAITrackEntry t e = e := by simp [addAITrackEntry, h1, hc]
      rw [he, he]
    | some pc =>
      by_cases hh : hasTrackId t.id pc.senders = true
      · have he : addAITrackEntry t e = e := by simp [addAITrackEntry, h1, hc, hh]
        rw [he, he]
      · have he : addAITrackEntry t e = (e.1, { e.2 with connection := some { pc with senders := pc.senders ++ [{ track := some t }] } }) := by
          simp [addAITrackEntry, h1, hc, hh]
        rw [he]
        simp [addAITrackEntry, h1, hasTrackId_append_self]

lemma map_addAI_idem (t : Track) (ps : Registry) :
    (ps.map (addAITrackEntry t)).map (addAITrackEntry t) = ps.map (addAITrackEntry t) := by
  induction ps with
  | nil => rfl
  | cons e rest ih => simp [addAITrackEntry_idem, ih]

lemma broadcastAIAudio_idem (st : VideoState) :
    broadcastAIAudio (broadcastAIAudio st) = broadcastAIAudio st := by
  unfold broadcastAIAudio
  cases hs : st.aiAudioStream with
  | none => simp [hs]
  | some stream =>
    cases ht : (getAudioTracks stream).head? with
    | none => simp [hs, ht]
    | some t => simp [hs, ht, addAITrackEntry_idem]

lemma addAITrackEntry_count (t : Track) (e : String × Peer)
    (hne : ¬(e.1 = "ai-facilitator")) {pc : RTCPeerConnection}
    (hc : e.2.connection = some pc)
    (hle : pc.senders.countP (trackIdIs t.id) ≤ 1) :
    ∃ pc2, (addAITrackEntry t e).2.connection = some pc2 ∧
      pc2.senders.countP (trackIdIs t.id) = 1 := by
  by_cases hh : hasTrackId t.id pc.senders = true
  · refine ⟨pc, by simp [addAITrackEntry, hne, hc, hh], ?_⟩
    have hpos : 0 < pc.senders.countP (trackIdIs t.id) := by
      rw [List.countP_pos_iff]
      obtain ⟨s, hs, hts⟩ := List.any_eq_true.mp hh
      exact ⟨s, hs, hts⟩
    omega
  · have hz : pc.senders.countP (trackIdIs t.id) = 0 := by
      by_contra hnz
      have hpos : 0 < pc.senders.countP (trackIdIs t.id) := Nat.pos_of_ne_zero hnz
      obtain ⟨s, hs, hts⟩ := List.countP_pos_iff.mp hpos
      exact hh (List.any_eq_true.mpr ⟨s, hs, hts⟩)
    refine ⟨{ pc with senders := pc.senders ++ [{ track := some t }] },
      by simp [addAITrackEntry, hne, hc, hh], ?_⟩
    simp [List.countP_append, hz, trackIdIs]

/-- C4: with the agent audio stream set, the fan-out is idempotent —
running `broadcastAIAudio` twice equals running it once, and after the
two calls every non-AI registry entry that holds a connection carries
the agent audio track (by track id) on exactly one sender, provided no
connection carried it on more than one sender beforehand. -/
theorem ai_fanout_idempotent (st : VideoState) (stream : MediaStream) (t : Track)
    (hs : st.aiAudioStream = some stream)
    (ht : (getAudioTracks stream).head? = some t)
    (hcnt : ∀ e ∈ st.peers, ∀ pc, e.2.connection = some pc →
      pc.senders.countP (trackIdIs t.id) ≤ 1) :
    broadcastAIAudio (broadcastAIAudio st) = broadcastAIAudio st ∧
    ∀ e ∈ (broadcastAIAudio (broadcastAIAudio st)).peers, ¬(e.1 = "ai-facilitator") →
      ∀ pc, e.2.connection = some pc → pc.senders.countP (trackIdIs t.id) = 1 := by
  refine ⟨broadcastAIAudio_idem st, ?_⟩
  rw [broadcastAIAudio_idem st]
  have hb : broadcastAIAudio st = { st with peers := st.peers.map (addAITrackEntry t) } := by
    unfold broadcastAIAudio
    simp [hs, ht]
  rw [hb]
  intro e he hne pc hpc
  simp only [List.mem_map] at he
  obtain ⟨e0, he0, rfl⟩ := he
  have hk : (addAITrackEntry t e0).1 = e0.1 := addAITrackEntry_key t e0
  rw [hk] at hne
  cases hc0 : e0.2.connection with
  | none =>
    have : addAITrackEntry t e0 = e0 := by simp [addAITrackEntry, hne, hc0]
    rw [this, hc0] at hpc
    cases hpc
  | some pc0 =>
    obtain ⟨pc2, hpc2, hcount⟩ :=
      addAITrackEntry_count t e0 hne hc0 (hcnt e0 he0 pc0 hc0)
    rw [hpc2] at hpc
    cases hpc
    exact hcount

/-- Witness for C4 at `stA` (one connected peer, AI stream `[tAI]`). -/
theorem ai_fanout_idempotent_witness :
    broadcastAIAudio (broadcastAIAudio stA) = broadcastAIAudio stA := by
  have h := ai_fanout_idempotent stA [tAI] tAI rfl rfl ?_
  · exact h.1
  · intro e he pc hpc
    have he' : e = ("A", peerA) := by
      have : stA.peers = [("A", peerA)] := rfl
      rw [this] at he
      simpa using he
    subst he'
    have : some pcA = some pc := hpc
    cases this
    decide

/-! ## Claim C3 — screen share swaps every outgoing video sender -/

/-- Inside a sender list with no video-kind sender, no sender carries a
video-kind track. -/
lemma countP_trackIs_zero_of_no_video {ss : List Sender} {t : Track}
    (hk : t.kind = "video") (h : ∀ s ∈ ss, isVideoSender s = false) :
    ss.countP (trackIs t) = 0 := by
  induction ss with
  | nil => rfl
  | cons s rest ih =>
    have hs := h s (List.mem_cons_self s rest)
    have hrest := ih (fun s' hm => h s' (List.mem_cons_of_mem s hm))
    have hfalse : trackIs t s = false := by
      unfold trackIs
      cases hst : s.track with
      | none => simp
      | some u =>
        simp only [decide_eq_false_iff_not]
        intro hut
        have : isVideoSender s = true := by
          simp [isVideoSender, hst, Option.some.injEq] at hut ⊢
          rw [hut, hk]
        rw [hs] at this
        cases this
    simp [List.countP_cons, hfalse, hrest]

/-- Replacing the unique video sender (which carries `old`) with `nt`
leaves exactly one sender carrying `nt` and none carrying `old`. -/
lemma replaceFirstVideoSender_counts {ss : List Sender} {old nt : Track}
    (hok : old.kind = "video") (hnk : nt.kind = "video") (hne : ¬(nt = old))
    (h1 : ss.countP isVideoSender = 1)
    (h2 : ∀ s ∈ ss, isVideoSender s = true → s.track = some old) :
    (replaceFirstVideoSender (some nt) ss).countP (trackIs nt) = 1 ∧
    (replaceFirstVideoSender (some nt) ss).countP (trackIs old) = 0 := by
  induction ss with
  | nil => simp [List.countP_nil] at h1
  | cons s rest ih =>
    by_cases hv : isVideoSender s = true
    · have hrestnv : ∀ s' ∈ rest, isVideoSender s' = false := by
        simp [List.countP_cons, hv] at h1
        exact h1
      have hrep : replaceFirstVideoSender (some nt) (s :: rest) =
          { track := some nt } :: rest := by
        simp [replaceFirstVideoSender, hv]
      rw [hrep]
      constructor
      · have hhead : trackIs nt { track := some nt } = true := by simp [trackIs]
        simp [List.countP_cons, hhead,
          countP_trackIs_zero_of_no_video hnk hrestnv]
      · have hhead : trackIs old { track := some nt } = false := by
          simp [trackIs, hne]
        simp [List.countP_cons, hhead,
          countP_trackIs_zero_of_no_video hok hrestnv]
    · have hv' : isVideoSender s = false := by simpa using hv
      have h1' : rest.countP isVideoSender = 1 := by
        simpa [List.countP_cons, hv'] using h1
      have h2' : ∀ s' ∈ rest, isVideoSender s' = true → s'.track = some old :=
        fun s' hm => h2 s' (List.mem_cons_of_mem s hm)
      have hsnt : trackIs nt s = false := by
        unfold trackIs
        simp only [decide_eq_false_iff_not]
        intro hst
        have : isVideoSender s = true := by simp [isVideoSender, hst, hnk]
        rw [hv'] at this
        cases this
      have hsold : trackIs old s = false := by
        unfold trackIs
        simp only [decide_eq_false_iff_not]
        intro hst
        have : isVideoSender s = true := by simp [isVideoSender, hst, hok]
        rw [hv'] at this
        cases this
      have hrep : replaceFirstVideoSender (some nt) (s :: rest) =
          s :: replaceFirstVideoSender (some nt) rest := by
        simp [replaceFirstVideoSender, hv']
      obtain ⟨ihnt, ihold⟩ := ih h1' h2'
      rw [hrep]
      constructor
      · simp [List.countP_cons, hsnt, ihnt]
      · simp [List.countP_cons, hsold, ihold]

/-- Per-connection hypothesis of C3: every held connection has exactly
one video-kind sender and it carries `old`. -/
def eachConnOneVideo (old : Track) (ps : Registry) : Prop :=
  ∀ e ∈ ps, ∀ pc, e.2.connection = some pc →
    pc.senders.countP isVideoSender = 1 ∧
    ∀ s ∈ pc.senders, isVideoSender s = true → s.track = some old

lemma replaceVideoTrackAll_counts (ps : Registry) {old nt : Track}
    (hok : old.kind = "video") (hnk : nt.kind = "video") (hne : ¬(nt = old))
    (h : eachConnOneVideo old ps) :
    countReg nt (replaceVideoTrackAll (some nt) ps) = connectedCount ps ∧
    countReg old (replaceVideoTrackAll (some nt) ps) = 0 := by
  induction ps with
  | nil => simp [replaceVideoTrackAll, countReg, connectedCount]
  | cons e rest ih =>
    have hrest : eachConnOneVideo old rest :=
      fun e' hm => h e' (List.mem_cons_of_mem e hm)
    obtain ⟨ihnt, ihold⟩ := ih hrest
    cases hc : e.2.connection with
    | none =>
      have hmap : replaceVideoTrackAll (some nt) (e :: rest) =
          e :: replaceVideoTrackAll (some nt) rest := by
        simp [replaceVideoTrackAll, hc]
      rw [hmap]
      simp [countReg, connectedCount, countConn, hc, ihnt, ihold]
    | some pc =>
      obtain ⟨hone, hcarry⟩ := h e (List.mem_cons_self e rest) pc hc
      obtain ⟨hcnt1, hcnt0⟩ :=
        replaceFirstVideoSender_counts hok hnk hne hone hcarry
      have hmap : replaceVideoTrackAll (some nt) (e :: rest) =
          (e.1, { e.2 with connection := some { pc with senders := replaceFirstVideoSender (some nt) pc.senders } }) :: replaceVideoTrackAll (some nt) rest := by
        simp [replaceVideoTrackAll, hc]
      rw [hmap]
      simp [countReg, connectedCount, countConn, hc, hcnt1, hcnt0, ihnt, ihold]

/-- C3: with every held connection carrying exactly one outgoing
video-kind sender, holding the old video track: starting screen share
(successful acquisition of a stream whose first video track is the
screen track) swaps the track on that sender for every one of the N
connected peers — afterwards exactly N senders carry the screen track
and zero carry the old one — emitting only `screen_share_start` (no
offer/answer); and stopping screen share symmetrically restores the
camera track on all of them, emitting only `screen_share_stop`. -/
theorem screen_share_swaps_all_senders :
    (∀ (st : VideoState) (old nt : Track) (stream : MediaStream),
      old.kind = "video" → nt.kind = "video" → ¬(nt = old) →
      (getVideoTracks stream).head? = some nt →
      eachConnOneVideo old st.peers →
      countReg nt (startScreenShare st (Except.ok stream)).1.peers = connectedCount st.peers ∧
      countReg old (startScreenShare st (Except.ok stream)).1.peers = 0 ∧
      (startScreenShare st (Except.ok stream)).2.1 = [Effect.emit Msg.screenShareStart]) ∧
    (∀ (st : VideoState) (old cam : Track) (s0 ls : MediaStream),
      old.kind = "video" → cam.kind = "video" → ¬(cam = old) →
      st.screenStream = some s0 →
      st.localStream = some ls →
      (getVideoTracks ls).head? = some cam →
      eachConnOneVideo old st.peers →
      countReg cam (stopScreenShare st).1.peers = connectedCount st.peers ∧
      countReg old (stopScreenShare st).1.peers = 0 ∧
      (stopScreenShare st).2 = [Effect.emit Msg.screenShareStop]) := by
  constructor
  · intro st old nt stream hok hnk hne hvt h
    have hred : startScreenShare st (Except.ok stream) =
        ({ st with
            screenStream := some stream
            isScreenSharing := true
            peers := replaceVideoTrackAll (some nt) st.peers },
         [Effect.emit Msg.screenShareStart], Except.ok stream) := by
      unfold startScreenShare
      dsimp only
      rw [hvt]
    rw [hred]
    obtain ⟨h1, h2⟩ := replaceVideoTrackAll_counts st.peers hok hnk hne h
    exact ⟨h1, h2, rfl⟩
  · intro st old cam s0 ls hok hck hne hscr hloc hvt h
    have hred : stopScreenShare st =
        ({ st with
            screenStream := none
            isScreenSharing := false
            peers := replaceVideoTrackAll (some cam) st.peers },
         [Effect.emit Msg.screenShareStop]) := by
      unfold stopScreenShare
      rw [hscr, hloc]
      dsimp only
      rw [hvt]
    rw [hred]
    obtain ⟨h1, h2⟩ := replaceVideoTrackAll_counts st.peers hok hck hne h
    exact ⟨h1, h2, rfl⟩

/-- The state of `stA` while screen sharing (used by the C3 witness). -/
def stShare : VideoState :=
  { stA with
      screenStream := some [tScr]
      isScreenSharing := true
      peers := [("A", { peerA with connection := some { pcA with senders := [{ track := some tScr }] } })] }

/-- Witness for C3: starting on `stA` (one connected peer carrying the
camera track) and stopping on `stShare` (same peer carrying the screen
track). -/
theorem screen_share_swaps_all_senders_witness :
    (countReg tScr (startScreenShare stA (Except.ok [tScr])).1.peers = connectedCount stA.peers ∧
     countReg tCam (startScreenShare stA (Except.ok [tScr])).1.peers = 0 ∧
     (startScreenShare stA (Except.ok [tScr])).2.1 = [Effect.emit Msg.screenShareStart]) ∧
    (countReg tCam (stopScreenShare stShare).1.peers = connectedCount stShare.peers ∧
     countReg tScr (stopScreenShare stShare).1.peers = 0 ∧
     (stopScreenShare stShare).2 = [Effect.emit Msg.screenShareStop]) := by
  constructor
  · refine screen_share_swaps_all_senders.1 stA tCam tScr [tScr] rfl rfl (by decide) rfl ?_
    intro e he pc hpc
    have he' : e = ("A", peerA) := by
      have hp : stA.peers = [("A", peerA)] := rfl
      rw [hp] at he
      simpa using he
    subst he'
    have : some pcA = some pc := hpc
    cases this
    exact ⟨by decide, by decide⟩
  · refine screen_share_swaps_all_senders.2 stShare tScr tCam [tScr] [tCam] rfl rfl (by decide) rfl rfl rfl ?_
    intro e he pc hpc
    have he' : e = ("A", { peerA with connection := some { pcA with senders := [{ track := some tScr }] } }) := by
      have hp : stShare.peers = [("A", { peerA with connection := some { pcA with senders := [{ track := some tScr }] } })] := rfl
      rw [hp] at he
      simpa using he
    subst he'
    have : some { pcA with senders := [{ track := some tScr }] } = some pc := hpc
    cases this
    exact ⟨by decide, by decide⟩

/-! ## Claim C8 — each threshold notification fires at most once -/

lemma memKey_cons (k w : String) (ws : List String) :
    memKey k (w :: ws) = (decide (w = k) || memKey k ws) := by
  simp [memKey]

lemma countKey_append (k : String) (a b : List (String × TimerEvent)) :
    countKey k (a ++ b) = countKey k a + countKey k b := by
  simp [countKey, List.countP_append]

lemma countKey_singleton (k key : String) (ev : TimerEvent) :
    countKey k [(key, ev)] = if key = k then 1 else 0 := by
  by_cases h : key = k <;> simp [countKey, List.countP_cons, h]

lemma fireIf_locked {k : String} (c : Bool) (key : String) (ev : TimerEvent)
    (acc : List String × List (String × TimerEvent))
    (h : memKey k acc.1 = true ∧ countKey k acc.2 = 0) :
    memKey k (fireIf c key ev acc).1 = true ∧ countKey k (fireIf c key ev acc).2 = 0 := by
  unfold fireIf
  by_cases hc : (c && !(memKey key acc.1)) = true
  · rw [if_pos hc]
    have hmk : memKey key acc.1 = false := by
      have : c = true ∧ memKey key acc.1 = false := by simpa using hc
      exact this.2
    have hkey : ¬(key = k) := by
      intro hkk
      rw [hkk, h.1] at hmk
      cases hmk
    constructor
    · simp [memKey_cons, h.1]
    · rw [countKey_append, h.2, countKey_singleton]
      simp [hkey]
  · rw [if_neg hc]
    exact h

lemma fireIf_keyInv {k : String} (c : Bool) (key : String) (ev : TimerEvent)
    (acc : List String × List (String × TimerEvent))
    (h : countKey k acc.2 ≤ 1 ∧ (memKey k acc.1 = false → countKey k acc.2 = 0)) :
    countKey k (fireIf c key ev acc).2 ≤ 1 ∧
    (memKey k (fireIf c key ev acc).1 = false → countKey k (fireIf c key ev acc).2 = 0) := by
  unfold fireIf
  by_cases hc : (c && !(memKey key acc.1)) = true
  · rw [if_pos hc]
    have hmk : memKey key acc.1 = false := by
      have : c = true ∧ memKey key acc.1 = false := by simpa using hc
      exact this.2
    by_cases hkk : key = k
    · subst hkk
      have hz := h.2 hmk
      constructor
      · rw [countKey_append, hz, countKey_singleton]
        simp
      · intro hmem
        rw [memKey_cons] at hmem
        simp at hmem
    · have heq : countKey k (acc.2 ++ [(key, ev)]) = countKey k acc.2 := by
        rw [countKey_append, countKey_singleton]
        simp [hkk]
      constructor
      · rw [heq]
        exact h.1
      · intro hmem
        rw [memKey_cons] at hmem
        simp only [Bool.or_eq_false_iff] at hmem
        rw [heq]
        exact h.2 hmem.2
  · rw [if_neg hc]
    exact h

lemma fireAll_locked {k : String} (entries : List (Bool × String × TimerEvent)) :
    ∀ acc, memKey k acc.1 = true ∧ countKey k acc.2 = 0 →
      memKey k (fireAll entries acc).1 = true ∧ countKey k (fireAll entries acc).2 = 0 := by
  induction entries with
  | nil => exact fun acc h => h
  | cons e rest ih =>
    intro acc h
    exact ih _ (fireIf_locked e.1 e.2.1 e.2.2 acc h)

lemma fireAll_keyInv {k : String} (entries : List (Bool × String × TimerEvent)) :
    ∀ acc, countKey k acc.2 ≤ 1 ∧ (memKey k acc.1 = false → countKey k acc.2 = 0) →
      countKey k (fireAll entries acc).2 ≤ 1 ∧
      (memKey k (fireAll entries acc).1 = false → countKey k (fireAll entries acc).2 = 0) := by
  induction entries with
  | nil => exact fun acc h => h
  | cons e rest ih =>
    intro acc h
    exact ih _ (fireIf_keyInv e.1 e.2.1 e.2.2 acc h)

lemma check_locked {k : String} (total : Nat) (phase : String) (cs : HeaderState)
    (h : memKey k cs.warningsSent = true) :
    memKey k (checkTimeEvents total phase cs).1.warningsSent = true ∧
    countKey k (checkTimeEvents total phase cs).2 = 0 :=
  fireIf_locked _ _ _ _ (fireAll_locked _ _ ⟨h, rfl⟩)

lemma check_keyInv {k : String} (total : Nat) (phase : String) (cs : HeaderState) :
    countKey k (checkTimeEvents total phase cs).2 ≤ 1 ∧
    (memKey k (checkTimeEvents total phase cs).1.warningsSent = false →
      countKey k (checkTimeEvents total phase cs).2 = 0) :=
  fireIf_keyInv _ _ _ _ (fireAll_keyInv _ _ ⟨Nat.zero_le 1, fun _ => rfl⟩)

lemma runTicks_cons (total : Nat) (ph : String) (rest : List String) (cs : HeaderState) :
    runTicks total (ph :: rest) cs =
      ((runTicks total rest (checkTimeEvents total ph { cs with elapsedSeconds := cs.elapsedSeconds + 1 }).1).1,
       (checkTimeEvents total ph { cs with elapsedSeconds := cs.elapsedSeconds + 1 }).2 ++
         (runTicks total rest (checkTimeEvents total ph { cs with elapsedSeconds := cs.elapsedSeconds + 1 }).1).2) :=
  rfl

lemma runTicks_locked {k : String} (total : Nat) (phases : List String) :
    ∀ cs : HeaderState, memKey k cs.warningsSent = true →
      memKey k (runTicks total phases cs).1.warningsSent = true ∧
      countKey k (runTicks total phases cs).2 = 0 := by
  induction phases with
  | nil => exact fun cs h => ⟨h, rfl⟩
  | cons ph rest ih =>
    intro cs h
    have hc := check_locked (k := k) total ph { cs with elapsedSeconds := cs.elapsedSeconds + 1 } h
    have hr := ih _ hc.1
    rw [runTicks_cons]
    exact ⟨hr.1, by rw [countKey_append, hc.2, hr.2]⟩

lemma runTicks_le_one {k : String} (total : Nat) (phases : List String) :
    ∀ cs : HeaderState, countKey k (runTicks total phases cs).2 ≤ 1 := by
  induction phases with
  | nil => exact fun cs => Nat.zero_le 1
  | cons ph rest ih =>
    intro cs
    rw [runTicks_cons, countKey_append]
    by_cases hm : memKey k cs.warningsSent = true
    · have hc := check_locked (k := k) total ph { cs with elapsedSeconds := cs.elapsedSeconds + 1 } hm
      have hr := runTicks_locked total rest _ hc.1
      rw [hc.2, hr.2]
      exact Nat.zero_le 1
    · have hck := check_keyInv (k := k) total ph { cs with elapsedSeconds := cs.elapsedSeconds + 1 }
      by_cases hm2 : memKey k (checkTimeEvents total ph { cs with elapsedSeconds := cs.elapsedSeconds + 1 }).1.warningsSent = true
      · have hr := runTicks_locked total rest _ hm2
        rw [hr.2]
        have := hck.1
        omega
      · have hm2' : memKey k (checkTimeEvents total ph { cs with elapsedSeconds := cs.elapsedSeconds + 1 }).1.warningsSent = false := by
          simpa using hm2
        rw [hck.2 hm2']
        simpa using ih _

/-- C8: over any run of local ticks (with any sequence of current
phases), a client emits the notification event attached to a given
threshold key at most once; once the key is in the `warningsSent` set no
tick ever re-emits it and the key stays in the set; and the explicit
reset action clears the set (and the elapsed counter) — it is the only
operation of the component that removes keys. -/
theorem threshold_notifications_fire_at_most_once (total : Nat) (phases : List String)
    (cs : HeaderState) (k : String) :
    countKey k (runTicks total phases cs).2 ≤ 1 ∧
    (memKey k cs.warningsSent = true →
      countKey k (runTicks total phases cs).2 = 0 ∧
      memKey k (runTicks total phases cs).1.warningsSent = true) ∧
    (resetTimer cs).warningsSent = [] ∧ (resetTimer cs).elapsedSeconds = 0 := by
  refine ⟨runTicks_le_one total phases cs, fun h => ?_, rfl, rfl⟩
  have hr := runTicks_locked total phases cs h
  exact ⟨hr.2, hr.1⟩

/-- Witness for C8: a client already notified of `total-5min` never
re-emits it over further ticks, and the key survives the run. -/
theorem threshold_notifications_fire_at_most_once_witness :
    countKey "total-5min" (runTicks 600 ["summary"]
      { elapsedSeconds := 0, isRunning := true, warningsSent := ["total-5min"] }).2 = 0 ∧
    memKey "total-5min" (runTicks 600 ["summary"]
      { elapsedSeconds := 0, isRunning := true, warningsSent := ["total-5min"] }).1.warningsSent = true :=
  (threshold_notifications_fire_at_most_once 600 ["summary"]
    { elapsedSeconds := 0, isRunning := true, warningsSent := ["total-5min"] }
    "total-5min").2.1 (by decide)

end AESF
